import Mathlib

/-!
# Verification of the Air Drum Kit detection-and-triggering logic

A shallow embedding of `src/main.py` (AIR DRUM KIT): zone registry,
point-in-rectangle containment, contour filtering, the per-frame play-state
processing loop (hit resolution and sound debouncing), keyboard-driven
application state transitions, the image loader fallback, and the main-loop
exit conditions.

Conventions:
- Python `//` on nonnegative integers is `Nat` division; screen coordinates
  are embedded as `Int` so that points outside the window are expressible.
- `cv2.contourArea` results are embedded as `Int` (the claims under study
  only concern integer thresholds).
- Sound playback (`drum_sounds[name].play()`) is recorded by appending the
  zone name to a trigger list; the number of occurrences of a zone in that
  list is the number of playback calls for that zone.
-/

namespace AirDrums

/-- The six drum zone names, in the insertion order of the Python
`drum_zones` dict: the five bottom-row pads, then the crash cymbal. -/
inductive DrumName where
  | Kick
  | Snare
  | HiHat
  | Tom1
  | Tom2
  | Crash
deriving DecidableEq, Repr, Fintype

open DrumName

/-- `WINDOW_WIDTH = 640`. -/
def WINDOW_WIDTH : Int := 640

/-- `WINDOW_HEIGHT = 480`. -/
def WINDOW_HEIGHT : Int := 480

/-- `ZONE_HEIGHT = 100`. -/
def ZONE_HEIGHT : Int := 100

/-- `bottom_row_drums = ["Kick", "Snare", "Hi-Hat", "Tom1", "Tom2"]`. -/
def bottom_row_drums : List DrumName := [Kick, Snare, HiHat, Tom1, Tom2]

/-- `number_of_drums = len(bottom_row_drums)`. -/
def number_of_drums : Int := bottom_row_drums.length

/-- `zone_width = WINDOW_WIDTH // number_of_drums`. -/
def zone_width : Int := WINDOW_WIDTH / number_of_drums

/-- `crash_cymbal_width = WINDOW_WIDTH // 4`. -/
def crash_cymbal_width : Int := WINDOW_WIDTH / 4

/-- A drum zone record: `{'box': (x1, y1, x2, y2), 'strike_y': None,
'is_crash': bool}`.  `strike_y` is reserved in the source and always `None`. -/
structure Zone where
  box : Int × Int × Int × Int
  strike_y : Option Int
  is_crash : Bool
deriving DecidableEq, Repr

/-- The bottom-row pad built at loop index `index`:
`box = (index*zone_width, WINDOW_HEIGHT - ZONE_HEIGHT,
index*zone_width + zone_width, WINDOW_HEIGHT)`. -/
def bottomRowZone (index : Int) : Zone :=
  { box := (index * zone_width, WINDOW_HEIGHT - ZONE_HEIGHT,
            index * zone_width + zone_width, WINDOW_HEIGHT)
    strike_y := none
    is_crash := false }

/-- The `drum_zones` dict: five equal-width pads along the bottom
(loop indices 0..4 in `bottom_row_drums` order) plus the crash cymbal
`(0, 0, crash_cymbal_width, ZONE_HEIGHT)` in the top-left corner. -/
def drum_zones : DrumName → Zone
  | Kick => bottomRowZone 0
  | Snare => bottomRowZone 1
  | HiHat => bottomRowZone 2
  | Tom1 => bottomRowZone 3
  | Tom2 => bottomRowZone 4
  | Crash => { box := (0, 0, crash_cymbal_width, ZONE_HEIGHT),
               strike_y := none, is_crash := true }

/-- Iteration order of the `drum_zones` dict (Python dict insertion order). -/
def allDrums : List DrumName := [Kick, Snare, HiHat, Tom1, Tom2, Crash]

/-- `is_point_inside_zone(point_x, point_y, zone_boundaries)`:
`x1 <= point_x <= x2 and y1 <= point_y <= y2`. -/
def is_point_inside_zone (point_x point_y : Int)
    (zone_boundaries : Int × Int × Int × Int) : Bool :=
  let (x1, y1, x2, y2) := zone_boundaries
  decide (x1 ≤ point_x ∧ point_x ≤ x2 ∧ y1 ≤ point_y ∧ point_y ≤ y2)

/-- The per-frame data of one OpenCV contour that the play branch consumes:
its `cv2.contourArea` and its `cv2.boundingRect` `(x, y, w, h)`
(nonnegative pixel values). -/
structure Contour where
  area : Int
  x : Nat
  y : Nat
  w : Nat
  h : Nat
deriving DecidableEq, Repr

/-- `center_x = x + w // 2`. -/
def centerX (c : Contour) : Int := (c.x + c.w / 2 : Nat)

/-- `center_y = y + h // 2`. -/
def centerY (c : Contour) : Int := (c.y + c.h / 2 : Nat)

/-- The mutable state of one play-state frame: `drums_being_hit`,
`sound_is_locked`, and the list of sounds played so far this frame
(in playback order). -/
structure PlayState where
  hit : DrumName → Bool
  lock : DrumName → Bool
  triggers : List DrumName

/-- Body of the inner `for drum_name, zone_properties in drum_zones.items()`
loop for one contour centred at `(cx, cy)`: if the centre is inside the
zone, mark the drum hit, and if its sound is not locked, play the sound and
lock it. -/
def processContourZone (cx cy : Int) (d : DrumName) (s : PlayState) : PlayState :=
  if is_point_inside_zone cx cy (drum_zones d).box then
    let s1 : PlayState := { s with hit := Function.update s.hit d true }
    if s1.lock d = false then
      { s1 with triggers := s1.triggers ++ [d],
                lock := Function.update s1.lock d true }
    else s1
  else s

/-- Body of the `for contour in detected_contours` loop: contours with
`contour_area > 500` are processed against every zone; smaller contours are
skipped entirely. -/
def processContour (c : Contour) (s : PlayState) : PlayState :=
  if c.area > 500 then
    allDrums.foldl (fun s d => processContourZone (centerX c) (centerY c) d s) s
  else s

/-- Body of the `for drum_name in drum_zones` reset loop:
`if not drums_being_hit[drum_name]: sound_is_locked[drum_name] = False`. -/
def resetZoneLock (d : DrumName) (s : PlayState) : PlayState :=
  if s.hit d = false then { s with lock := Function.update s.lock d false }
  else s

/-- One whole play-state frame: start from `drums_being_hit` all `False` and
the incoming `sound_is_locked`, process every detected contour, then reset
the locks of the zones that were not hit. -/
def processFrame (contours : List Contour) (lock0 : DrumName → Bool) : PlayState :=
  let s0 : PlayState := { hit := fun _ => false, lock := lock0, triggers := [] }
  let s1 := contours.foldl (fun s c => processContour c s) s0
  allDrums.foldl (fun s d => resetZoneLock d s) s1

/-- The startup value of `sound_is_locked`: `False` for every drum. -/
def initial_sound_is_locked : DrumName → Bool := fun _ => false

/-- Whether a single contour (after the area filter) registers a hit on
drum `d`: its area exceeds 500 and its bounding-rectangle centre lies in
the zone's box. -/
def contourHits (c : Contour) (d : DrumName) : Bool :=
  decide (500 < c.area) && is_point_inside_zone (centerX c) (centerY c) (drum_zones d).box

/-- The per-frame hit state of drum `d` produced by a list of contours:
some contour with area above 500 has its centre inside the zone. -/
def frameHit (contours : List Contour) (d : DrumName) : Bool :=
  contours.any (fun c => contourHits c d)

/-! ### Pointwise behaviour of the inner zone loop -/

theorem pcz_hit_self (cx cy : Int) (d : DrumName) (s : PlayState) :
    (processContourZone cx cy d s).hit d
      = (s.hit d || is_point_inside_zone cx cy (drum_zones d).box) := by
  cases hin : is_point_inside_zone cx cy (drum_zones d).box <;>
    cases hlk : s.lock d <;>
      simp [processContourZone, hin, hlk, Function.update_same]

theorem pcz_hit_ne (cx cy : Int) (d e : DrumName) (s : PlayState) (hne : e ≠ d) :
    (processContourZone cx cy d s).hit e = s.hit e := by
  cases hin : is_point_inside_zone cx cy (drum_zones d).box <;>
    cases hlk : s.lock d <;>
      simp [processContourZone, hin, hlk, Function.update_noteq hne]

theorem pcz_lock_self (cx cy : Int) (d : DrumName) (s : PlayState) :
    (processContourZone cx cy d s).lock d
      = (s.lock d || is_point_inside_zone cx cy (drum_zones d).box) := by
  cases hin : is_point_inside_zone cx cy (drum_zones d).box <;>
    cases hlk : s.lock d <;>
      simp [processContourZone, hin, hlk, Function.update_same]

theorem pcz_lock_ne (cx cy : Int) (d e : DrumName) (s : PlayState) (hne : e ≠ d) :
    (processContourZone cx cy d s).lock e = s.lock e := by
  cases hin : is_point_inside_zone cx cy (drum_zones d).box <;>
    cases hlk : s.lock d <;>
      simp [processContourZone, hin, hlk, Function.update_noteq hne]

theorem pcz_count_self (cx cy : Int) (d : DrumName) (s : PlayState) :
    (processContourZone cx cy d s).triggers.count d
      = s.triggers.count d
        + (if (is_point_inside_zone cx cy (drum_zones d).box && !(s.lock d)) = true
           then 1 else 0) := by
  cases hin : is_point_inside_zone cx cy (drum_zones d).box <;>
    cases hlk : s.lock d <;>
      simp [processContourZone, hin, hlk, List.count_append]

theorem pcz_count_ne (cx cy : Int) (d e : DrumName) (s : PlayState) (hne : e ≠ d) :
    (processContourZone cx cy d s).triggers.count e = s.triggers.count e := by
  cases hin : is_point_inside_zone cx cy (drum_zones d).box <;>
    cases hlk : s.lock d <;>
      simp [processContourZone, hin, hlk, List.count_append,
            List.count_singleton', hne.symm]

/-! ### The fold of the inner loop over the zone list -/

theorem foldZones_hit_not_mem (cx cy : Int) (l : List DrumName) (d : DrumName)
    (hd : d ∉ l) (s : PlayState) :
    ((l.foldl (fun s e => processContourZone cx cy e s) s).hit d) = s.hit d := by
  induction l generalizing s with
  | nil => rfl
  | cons a l ih =>
    simp only [List.foldl_cons]
    rw [ih (fun h => hd (List.mem_cons_of_mem a h)),
        pcz_hit_ne cx cy a d s (fun h => hd (h ▸ List.mem_cons_self a l))]

theorem foldZones_lock_not_mem (cx cy : Int) (l : List DrumName) (d : DrumName)
    (hd : d ∉ l) (s : PlayState) :
    ((l.foldl (fun s e => processContourZone cx cy e s) s).lock d) = s.lock d := by
  induction l generalizing s with
  | nil => rfl
  | cons a l ih =>
    simp only [List.foldl_cons]
    rw [ih (fun h => hd (List.mem_cons_of_mem a h)),
        pcz_lock_ne cx cy a d s (fun h => hd (h ▸ List.mem_cons_self a l))]

theorem foldZones_count_not_mem (cx cy : Int) (l : List DrumName) (d : DrumName)
    (hd : d ∉ l) (s : PlayState) :
    ((l.foldl (fun s e => processContourZone cx cy e s) s).triggers.count d)
      = s.triggers.count d := by
  induction l generalizing s with
  | nil => rfl
  | cons a l ih =>
    simp only [List.foldl_cons]
    rw [ih (fun h => hd (List.mem_cons_of_mem a h)),
        pcz_count_ne cx cy a d s (fun h => hd (h ▸ List.mem_cons_self a l))]

theorem foldZones_hit_mem (cx cy : Int) (l : List DrumName) (d : DrumName)
    (hd : d ∈ l) (hl : l.Nodup) (s : PlayState) :
    ((l.foldl (fun s e => processContourZone cx cy e s) s).hit d)
      = (s.hit d || is_point_inside_zone cx cy (drum_zones d).box) := by
  induction l generalizing s with
  | nil => cases hd
  | cons a l ih =>
    simp only [List.foldl_cons]
    rcases List.mem_cons.mp hd with h | h
    · subst h
      rw [foldZones_hit_not_mem cx cy l d (List.nodup_cons.mp hl).1, pcz_hit_self]
    · have hne : d ≠ a := fun hda => (List.nodup_cons.mp hl).1 (hda ▸ h)
      rw [ih h (List.nodup_cons.mp hl).2, pcz_hit_ne cx cy a d s hne]

theorem foldZones_lock_mem (cx cy : Int) (l : List DrumName) (d : DrumName)
    (hd : d ∈ l) (hl : l.Nodup) (s : PlayState) :
    ((l.foldl (fun s e => processContourZone cx cy e s) s).lock d)
      = (s.lock d || is_point_inside_zone cx cy (drum_zones d).box) := by
  induction l generalizing s with
  | nil => cases hd
  | cons a l ih =>
    simp only [List.foldl_cons]
    rcases List.mem_cons.mp hd with h | h
    · subst h
      rw [foldZones_lock_not_mem cx cy l d (List.nodup_cons.mp hl).1, pcz_lock_self]
    · have hne : d ≠ a := fun hda => (List.nodup_cons.mp hl).1 (hda ▸ h)
      rw [ih h (List.nodup_cons.mp hl).2, pcz_lock_ne cx cy a d s hne]

theorem foldZones_count_mem (cx cy : Int) (l : List DrumName) (d : DrumName)
    (hd : d ∈ l) (hl : l.Nodup) (s : PlayState) :
    ((l.foldl (fun s e => processContourZone cx cy e s) s).triggers.count d)
      = s.triggers.count d
        + (if (is_point_inside_zone cx cy (drum_zones d).box && !(s.lock d)) = true
           then 1 else 0) := by
  induction l generalizing s with
  | nil => cases hd
  | cons a l ih =>
    simp only [List.foldl_cons]
    rcases List.mem_cons.mp hd with h | h
    · subst h
      rw [foldZones_count_not_mem cx cy l d (List.nodup_cons.mp hl).1,
          pcz_count_self]
    · have hne : d ≠ a := fun hda => (List.nodup_cons.mp hl).1 (hda ▸ h)
      rw [ih h (List.nodup_cons.mp hl).2, pcz_count_ne cx cy a d s hne,
          pcz_lock_ne cx cy a d s hne]

/-! ### One contour against the whole `drum_zones` dict -/

theorem mem_allDrums (d : DrumName) : d ∈ allDrums := by
  cases d <;> simp [allDrums]

theorem nodup_allDrums : allDrums.Nodup := by decide

theorem processContour_hit (c : Contour) (s : PlayState) (d : DrumName) :
    (processContour c s).hit d = (s.hit d || contourHits c d) := by
  unfold processContour contourHits
  cases ha : decide (500 < c.area) with
  | false =>
    have : ¬ (500 : Int) < c.area := of_decide_eq_false ha
    simp [this]
  | true =>
    have : (500 : Int) < c.area := of_decide_eq_true ha
    simp only [this, if_pos, Bool.true_and]
    exact foldZones_hit_mem _ _ allDrums d (mem_allDrums d) nodup_allDrums s

theorem processContour_lock (c : Contour) (s : PlayState) (d : DrumName) :
    (processContour c s).lock d = (s.lock d || contourHits c d) := by
  unfold processContour contourHits
  cases ha : decide (500 < c.area) with
  | false =>
    have : ¬ (500 : Int) < c.area := of_decide_eq_false ha
    simp [this]
  | true =>
    have : (500 : Int) < c.area := of_decide_eq_true ha
    simp only [this, if_pos, Bool.true_and]
    exact foldZones_lock_mem _ _ allDrums d (mem_allDrums d) nodup_allDrums s

theorem processContour_count (c : Contour) (s : PlayState) (d : DrumName) :
    (processContour c s).triggers.count d
      = s.triggers.count d
        + (if (contourHits c d && !(s.lock d)) = true then 1 else 0) := by
  unfold processContour contourHits
  cases ha : decide (500 < c.area) with
  | false =>
    have : ¬ (500 : Int) < c.area := of_decide_eq_false ha
    simp [this]
  | true =>
    have : (500 : Int) < c.area := of_decide_eq_true ha
    simp only [this, if_pos, Bool.true_and]
    exact foldZones_count_mem _ _ allDrums d (mem_allDrums d) nodup_allDrums s

/-! ### The fold over the detected contours -/

theorem frameHit_nil (d : DrumName) : frameHit [] d = false := rfl

theorem frameHit_cons (c : Contour) (cs : List Contour) (d : DrumName) :
    frameHit (c :: cs) d = (contourHits c d || frameHit cs d) := by
  simp [frameHit]

theorem foldContours_hit (cs : List Contour) (s : PlayState) (d : DrumName) :
    ((cs.foldl (fun s c => processContour c s) s).hit d)
      = (s.hit d || frameHit cs d) := by
  induction cs generalizing s with
  | nil => simp [frameHit]
  | cons c cs ih =>
    simp only [List.foldl_cons]
    rw [ih, processContour_hit]
    simp [frameHit, Bool.or_assoc]

theorem foldContours_lock (cs : List Contour) (s : PlayState) (d : DrumName) :
    ((cs.foldl (fun s c => processContour c s) s).lock d)
      = (s.lock d || frameHit cs d) := by
  induction cs generalizing s with
  | nil => simp [frameHit]
  | cons c cs ih =>
    simp only [List.foldl_cons]
    rw [ih, processContour_lock]
    simp [frameHit, Bool.or_assoc]

theorem foldContours_count (cs : List Contour) (s : PlayState) (d : DrumName) :
    ((cs.foldl (fun s c => processContour c s) s).triggers.count d)
      = s.triggers.count d
        + (if (frameHit cs d && !(s.lock d)) = true then 1 else 0) := by
  induction cs generalizing s with
  | nil => simp [frameHit]
  | cons c cs ih =>
    simp only [List.foldl_cons]
    rw [ih, processContour_count, processContour_lock, frameHit_cons]
    cases hl : s.lock d <;> cases hc : contourHits c d <;>
      cases hf : frameHit cs d <;>
        simp [hl, hc, hf]

/-! ### The lock-reset loop -/

theorem reset_hit (d e : DrumName) (s : PlayState) :
    (resetZoneLock d s).hit e = s.hit e := by
  unfold resetZoneLock
  split <;> rfl

theorem reset_triggers (d : DrumName) (s : PlayState) :
    (resetZoneLock d s).triggers = s.triggers := by
  unfold resetZoneLock
  split <;> rfl

theorem reset_lock_self (d : DrumName) (s : PlayState) :
    (resetZoneLock d s).lock d = (if s.hit d = true then s.lock d else false) := by
  cases hh : s.hit d <;> simp [resetZoneLock, hh, Function.update_same]

theorem reset_lock_ne (d e : DrumName) (s : PlayState) (hne : e ≠ d) :
    (resetZoneLock d s).lock e = s.lock e := by
  cases hh : s.hit d <;> simp [resetZoneLock, hh, Function.update_noteq hne]

theorem foldReset_hit (l : List DrumName) (s : PlayState) (e : DrumName) :
    ((l.foldl (fun s d => resetZoneLock d s) s).hit e) = s.hit e := by
  induction l generalizing s with
  | nil => rfl
  | cons a l ih => simp only [List.foldl_cons]; rw [ih, reset_hit]

theorem foldReset_triggers (l : List DrumName) (s : PlayState) :
    ((l.foldl (fun s d => resetZoneLock d s) s).triggers) = s.triggers := by
  induction l generalizing s with
  | nil => rfl
  | cons a l ih => simp only [List.foldl_cons]; rw [ih, reset_triggers]

theorem foldReset_lock_not_mem (l : List DrumName) (d : DrumName)
    (hd : d ∉ l) (s : PlayState) :
    ((l.foldl (fun s e => resetZoneLock e s) s).lock d) = s.lock d := by
  induction l generalizing s with
  | nil => rfl
  | cons a l ih =>
    simp only [List.foldl_cons]
    rw [ih (fun h => hd (List.mem_cons_of_mem a h)),
        reset_lock_ne a d s (fun h => hd (h ▸ List.mem_cons_self a l))]

theorem foldReset_lock_mem (l : List DrumName) (d : DrumName)
    (hd : d ∈ l) (hl : l.Nodup) (s : PlayState) :
    ((l.foldl (fun s e => resetZoneLock e s) s).lock d)
      = (if s.hit d = true then s.lock d else false) := by
  induction l generalizing s with
  | nil => cases hd
  | cons a l ih =>
    simp only [List.foldl_cons]
    rcases List.mem_cons.mp hd with h | h
    · subst h
      rw [foldReset_lock_not_mem l d (List.nodup_cons.mp hl).1]
      rw [reset_lock_self]
    · have hne : d ≠ a := fun hda => (List.nodup_cons.mp hl).1 (hda ▸ h)
      rw [ih h (List.nodup_cons.mp hl).2, reset_lock_ne a d s hne, reset_hit]

/-! ### Whole-frame characterisation -/

theorem processFrame_hit (cs : List Contour) (lock0 : DrumName → Bool) (d : DrumName) :
    (processFrame cs lock0).hit d = frameHit cs d := by
  unfold processFrame
  rw [foldReset_hit, foldContours_hit]
  simp

theorem processFrame_lock (cs : List Contour) (lock0 : DrumName → Bool) (d : DrumName) :
    (processFrame cs lock0).lock d = frameHit cs d := by
  unfold processFrame
  rw [foldReset_lock_mem allDrums d (mem_allDrums d) nodup_allDrums,
      foldContours_hit, foldContours_lock]
  cases hf : frameHit cs d <;> simp [hf]

theorem processFrame_count (cs : List Contour) (lock0 : DrumName → Bool) (d : DrumName) :
    (processFrame cs lock0).triggers.count d
      = (if (frameHit cs d && !(lock0 d)) = true then 1 else 0) := by
  unfold processFrame
  rw [foldReset_triggers, foldContours_count]
  simp

/-! ### Iterating the play branch over a sequence of frames

`runFrames frames lock` runs the play-state frame processing once per frame
(each frame given by its list of detected contours), threading
`sound_is_locked` across frames as the main loop does, and returns the final
lock table together with, for each drum, the total number of times its sound
was played over the whole sequence. -/

def runFrames : List (List Contour) → (DrumName → Bool) → (DrumName → Bool) × (DrumName → Nat)
  | [], lock => (lock, fun _ => 0)
  | f :: fs, lock =>
      let s := processFrame f lock
      let r := runFrames fs s.lock
      (r.1, fun d => s.triggers.count d + r.2 d)

theorem runFrames_cons (f : List Contour) (fs : List (List Contour))
    (lock : DrumName → Bool) :
    runFrames (f :: fs) lock
      = ((runFrames fs (processFrame f lock).lock).1,
         fun d => (processFrame f lock).triggers.count d
                    + (runFrames fs (processFrame f lock).lock).2 d) := rfl

theorem runFrames_append (a b : List (List Contour)) (lock : DrumName → Bool) :
    (runFrames (a ++ b) lock).1 = (runFrames b (runFrames a lock).1).1 ∧
    ∀ d, (runFrames (a ++ b) lock).2 d
           = (runFrames a lock).2 d + (runFrames b (runFrames a lock).1).2 d := by
  induction a generalizing lock with
  | nil => exact ⟨rfl, fun d => by simp [runFrames]⟩
  | cons f fs ih =>
    constructor
    · simpa [runFrames_cons] using (ih (processFrame f lock).lock).1
    · intro d
      have := (ih (processFrame f lock).lock).2 d
      simp only [List.cons_append, runFrames_cons]
      rw [this, Nat.add_assoc]

theorem runFrames_fst_getLast (fs : List (List Contour)) (lock : DrumName → Bool)
    (d : DrumName) (p : List Contour) (h : fs.getLast? = some p) :
    (runFrames fs lock).1 d = frameHit p d := by
  induction fs generalizing lock with
  | nil => cases h
  | cons f fs ih =>
    cases fs with
    | nil =>
      simp only [List.getLast?_singleton, Option.some_inj] at h
      subst h
      simp [runFrames_cons, runFrames, processFrame_lock]
    | cons g gs =>
      rw [List.getLast?_cons_cons] at h
      simpa [runFrames_cons] using ih (processFrame f lock).lock h

theorem runFrames_locked_all_hit (fs : List (List Contour)) (lock : DrumName → Bool)
    (d : DrumName) (hlk : lock d = true) (hall : ∀ f ∈ fs, frameHit f d = true) :
    (runFrames fs lock).2 d = 0 ∧ (runFrames fs lock).1 d = true := by
  induction fs generalizing lock with
  | nil => exact ⟨rfl, hlk⟩
  | cons f fs ih =>
    have hf : frameHit f d = true := hall f (List.mem_cons_self f fs)
    have hlk' : (processFrame f lock).lock d = true := by
      rw [processFrame_lock]; exact hf
    have hrest := ih (processFrame f lock).lock hlk'
      (fun g hg => hall g (List.mem_cons_of_mem f hg))
    refine ⟨?_, by simpa [runFrames_cons] using hrest.2⟩
    simp only [runFrames_cons]
    rw [processFrame_count, hf, hlk, hrest.1]
    simp

theorem runFrames_one_per_run (fs : List (List Contour)) (lock : DrumName → Bool)
    (d : DrumName) (hlk : lock d = false) (hne : fs ≠ [])
    (hall : ∀ f ∈ fs, frameHit f d = true) :
    (runFrames fs lock).2 d = 1 := by
  cases fs with
  | nil => exact absurd rfl hne
  | cons f fs =>
    have hf : frameHit f d = true := hall f (List.mem_cons_self f fs)
    have hlk' : (processFrame f lock).lock d = true := by
      rw [processFrame_lock]; exact hf
    have hrest := runFrames_locked_all_hit fs (processFrame f lock).lock d hlk'
      (fun g hg => hall g (List.mem_cons_of_mem f hg))
    simp only [runFrames_cons]
    rw [processFrame_count, hf, hlk, hrest.1]
    simp

theorem runFrames_not_hit (fs : List (List Contour)) (lock : DrumName → Bool)
    (d : DrumName) (hall : ∀ f ∈ fs, frameHit f d = false) :
    (runFrames fs lock).2 d = 0 := by
  induction fs generalizing lock with
  | nil => rfl
  | cons f fs ih =>
    have hf : frameHit f d = false := hall f (List.mem_cons_self f fs)
    simp only [runFrames_cons]
    rw [processFrame_count, hf,
        ih (processFrame f lock).lock (fun g hg => hall g (List.mem_cons_of_mem f hg))]
    simp

/-! ### Application state and keyboard handling

`STATE_MENU = 0` and `STATE_PLAY = 1` are embedded as a two-constructor
inductive.  The loop's `break` statements are embedded by clearing a
`running` flag.  Keys are the byte values produced by
`cv2.waitKey(1) & 0xFF`. -/

/-- The two values of `current_app_state`. -/
inductive AppState where
  | Menu
  | Play
deriving DecidableEq, Repr

/-- The process-wide mutable state read and written by the main loop:
`current_app_state`, `showing_credits`, `sound_is_locked`, and a flag
recording whether the loop is still running. -/
structure GlobalState where
  app : AppState
  showing_credits : Bool
  sound_is_locked : DrumName → Bool
  running : Bool

/-- `ord('p')`. -/
def ord_p : Nat := 112

/-- `ord('c')`. -/
def ord_c : Nat := 99

/-- `ord('b')`. -/
def ord_b : Nat := 98

/-- `ord('q')`. -/
def ord_q : Nat := 113

/-- The keyboard dispatch of the menu branch:
`p` enters play (clearing `showing_credits`), `c` shows credits, `b` hides
them, `q` breaks out of the loop; any other key falls through. -/
def handleMenuKey (key : Nat) (s : GlobalState) : GlobalState :=
  if key = ord_p then { s with app := AppState.Play, showing_credits := false }
  else if key = ord_c then { s with showing_credits := true }
  else if key = ord_b then { s with showing_credits := false }
  else if key = ord_q then { s with running := false }
  else s

/-- The keyboard dispatch of the play branch: `b` returns to the menu and
clears `showing_credits`, `q` breaks out of the loop; any other key falls
through. -/
def handlePlayKey (key : Nat) (s : GlobalState) : GlobalState :=
  if key = ord_b then { s with app := AppState.Menu, showing_credits := false }
  else if key = ord_q then { s with running := false }
  else s

/-- The per-iteration inputs of the main loop: the result flag of
`webcam.read()`, the contours detected in the (mirrored) frame, and the
polled key.  Rendering and display have no effect on this state and are
omitted. -/
structure LoopInput where
  frame_captured : Bool
  contours : List Contour
  key : Nat

/-- One iteration of the `while True` loop: break immediately when frame
capture fails; in the menu state only keyboard dispatch touches the state;
in the play state the frame is processed (updating `sound_is_locked`) and
then keys are dispatched. -/
def loopStep (inp : LoopInput) (s : GlobalState) : GlobalState :=
  if inp.frame_captured = false then { s with running := false }
  else
    match s.app with
    | AppState.Menu => handleMenuKey inp.key s
    | AppState.Play =>
        let ps := processFrame inp.contours s.sound_is_locked
        handlePlayKey inp.key { s with sound_is_locked := ps.lock }

/-! ### The image loader

`load_drum_image` talks to the filesystem through `cv2.imread`; the embedding
abstracts that call by its possible outcomes.  `cv2.imread(path,
IMREAD_UNCHANGED)` returns `None` (unreadable/corrupt file), a 2-dimensional
array (grayscale image, for which the source's `loaded_image.shape[2]` raises
`IndexError`, caught by the `except` clause), or a 3-dimensional array with
some number of channels.  An image value is embedded by its shape alone,
which is all the claims concern. -/

/-- The shape of a loaded OpenCV image: height, width, channel count. -/
structure Image where
  height : Nat
  width : Nat
  channels : Nat
deriving DecidableEq, Repr

/-- The possible outcomes of `cv2.imread(file_path, cv2.IMREAD_UNCHANGED)`
relevant to `load_drum_image`:  `failure` is a `None` return,
`gray` a 2-dimensional result (no `shape[2]`), `color` a 3-dimensional
result with the given channel count. -/
inductive ImreadResult where
  | failure
  | gray (height width : Nat)
  | color (height width channels : Nat)
deriving DecidableEq, Repr

/-- The `"NO IMAGE"` placeholder:
`np.zeros((target_height, target_width, 3), dtype=np.uint8)` with overlay
text (the text does not change the shape). -/
def placeholderImage (target_width target_height : Nat) : Image :=
  { height := target_height, width := target_width, channels := 3 }

/-- `load_drum_image(file_path, target_width, target_height)`, with the
`cv2.imread` call abstracted by its outcome.  A `None` result skips the
`if` body; a 2-dimensional result raises `IndexError` at
`loaded_image.shape[2]`, which the `except` clause catches; otherwise the
image is resized to `(target_width, target_height)`, converted from BGRA to
BGR when it has 4 channels, and returned when it has 3 channels.  Every
path that does not return inside the `try` falls through to the
placeholder. -/
def load_drum_image (res : ImreadResult) (target_width target_height : Nat) : Image :=
  match res with
  | ImreadResult.failure => placeholderImage target_width target_height
  | ImreadResult.gray _ _ => placeholderImage target_width target_height
  | ImreadResult.color _ _ ch =>
      let resized : Image := { height := target_height, width := target_width,
                               channels := ch }
      let converted := if resized.channels = 4
                       then { resized with channels := 3 } else resized
      if converted.channels = 3 then converted
      else placeholderImage target_width target_height

/-! ### The spec's two-phase trigger model

The specification describes the play-state logic in two phases: first the
Hit Resolver computes the full HitState over all detected objects, then the
Trigger Debouncer runs once per zone.  The following definitions follow the
spec's words; the refinement theorem compares them with `processFrame`,
which interleaves triggering with contour processing as the source does. -/

/-- Modelled from the spec (Data Model, `DetectedObject`; §4.1): the
per-frame detected objects, i.e. the regions surviving the noise filter,
each reduced to its bounding-rectangle-centre centroid. -/
def detectedCentroids (contours : List Contour) : List (Int × Int) :=
  contours.filterMap (fun c =>
    if 500 < c.area then some (centerX c, centerY c) else none)

/-- Modelled from the spec (§4.2 Hit Resolver): `HitState[zone]` is true iff
at least one detected object's centroid lies within the zone's closed
rectangle. -/
def specHitState (contours : List Contour) (d : DrumName) : Bool :=
  (detectedCentroids contours).any
    (fun p => is_point_inside_zone p.1 p.2 (drum_zones d).box)

/-- Modelled from the spec (§4.3 Trigger Debouncer): a trigger is emitted
for a zone iff its HitState is true and its lock was not already held. -/
def specTrigger (hit lock0 : DrumName → Bool) (d : DrumName) : Bool :=
  hit d && !(lock0 d)

/-- Modelled from the spec (Data Model, `TriggerLock`; §4.3): after the
frame, the lock is held iff the zone's HitState is true this frame. -/
def specLockAfter (hit : DrumName → Bool) (d : DrumName) : Bool := hit d

theorem specHitState_eq_frameHit (cs : List Contour) (d : DrumName) :
    specHitState cs d = frameHit cs d := by
  induction cs with
  | nil => rfl
  | cons c cs ih =>
    rw [frameHit_cons, ← ih]
    by_cases h : 500 < c.area
    · simp [specHitState, detectedCentroids, contourHits, h]
    · simp [specHitState, detectedCentroids, contourHits, h]

/-! ### The bottom-row pads by index -/

/-- The bottom-row pad at position `i` of `bottom_row_drums`. -/
def bottomDrum (i : Fin 5) : DrumName :=
  bottom_row_drums.get (Fin.cast (by rfl) i)

theorem drum_zones_box_bottom (i : Fin 5) :
    (drum_zones (bottomDrum i)).box
      = ((i.val : Int) * 128, 380, (i.val : Int) * 128 + 128, 480) := by
  fin_cases i <;> decide

theorem bottomDrum_adjacent_ne (i : Fin 4) :
    bottomDrum i.castSucc ≠ bottomDrum i.succ := by
  fin_cases i <;> decide

/-! ## The claims -/

/-- C1: for every zone and every sequence of frames, the debouncer emits
exactly one trigger (sound playback) per maximal contiguous run of frames in
which the zone's HitState is true, regardless of the run's length and of how
many detected objects are inside the zone per frame; while the lock is held,
no further trigger is emitted for that zone.  First conjunct: a frame whose
zone lock is already held plays that zone's sound zero times.  Second
conjunct: starting from the program's initial lock table, any nonempty run
of frames that all hit zone `d` and that is preceded either by nothing or by
a frame not hitting `d` plays `d`'s sound exactly once over the whole run. -/
theorem claim_debounce_single_trigger_per_run :
    (∀ (cs : List Contour) (lock0 : DrumName → Bool) (d : DrumName),
        lock0 d = true → (processFrame cs lock0).triggers.count d = 0) ∧
    (∀ (pre run : List (List Contour)) (d : DrumName),
        run ≠ [] →
        (∀ f ∈ run, frameHit f d = true) →
        (∀ p, pre.getLast? = some p → frameHit p d = false) →
        (runFrames run (runFrames pre initial_sound_is_locked).1).2 d = 1) := by
  constructor
  · intro cs lock0 d h
    rw [processFrame_count, h]
    simp
  · intro pre run d hne hall hmax
    refine runFrames_one_per_run run _ d ?_ hne hall
    cases hpre : pre with
    | nil => rfl
    | cons a l =>
      have hnil : pre ≠ [] := by rw [hpre]; exact List.cons_ne_nil a l
      rw [← hpre]
      rw [runFrames_fst_getLast pre _ d (pre.getLast hnil)
            (List.getLast?_eq_getLast_of_ne_nil hnil)]
      exact hmax _ (List.getLast?_eq_getLast_of_ne_nil hnil)

theorem claim_debounce_single_trigger_per_run_witness :
    (processFrame [] (fun _ => true)).triggers.count DrumName.Kick = 0 ∧
    (runFrames [[⟨600, 0, 400, 100, 100⟩]]
        (runFrames [] initial_sound_is_locked).1).2 DrumName.Kick = 1 :=
  ⟨claim_debounce_single_trigger_per_run.1 [] (fun _ => true) DrumName.Kick rfl,
   claim_debounce_single_trigger_per_run.2 [] [[⟨600, 0, 400, 100, 100⟩]]
     DrumName.Kick (by simp) (by decide) (by simp)⟩

/-- C2: for every zone bounds `(x1, y1, x2, y2)` and every point
`(px, py)`, the containment test classifies the point as inside iff
`x1 ≤ px ≤ x2` and `y1 ≤ py ≤ y2` (closed rectangle); a point exactly on
any edge is inside, and a point one unit outside any edge is outside. -/
theorem claim_containment_closed_rectangle :
    (∀ x1 y1 x2 y2 px py : Int,
        is_point_inside_zone px py (x1, y1, x2, y2) = true ↔
          x1 ≤ px ∧ px ≤ x2 ∧ y1 ≤ py ∧ py ≤ y2) ∧
    (∀ x1 y1 x2 y2 py : Int, x1 ≤ x2 → y1 ≤ py → py ≤ y2 →
        is_point_inside_zone x1 py (x1, y1, x2, y2) = true ∧
        is_point_inside_zone x2 py (x1, y1, x2, y2) = true ∧
        is_point_inside_zone (x1 - 1) py (x1, y1, x2, y2) = false ∧
        is_point_inside_zone (x2 + 1) py (x1, y1, x2, y2) = false) ∧
    (∀ x1 y1 x2 y2 px : Int, y1 ≤ y2 → x1 ≤ px → px ≤ x2 →
        is_point_inside_zone px y1 (x1, y1, x2, y2) = true ∧
        is_point_inside_zone px y2 (x1, y1, x2, y2) = true ∧
        is_point_inside_zone px (y1 - 1) (x1, y1, x2, y2) = false ∧
        is_point_inside_zone px (y2 + 1) (x1, y1, x2, y2) = false) := by
  refine ⟨?_, ?_, ?_⟩ <;> intros <;> simp [is_point_inside_zone] <;> omega

theorem claim_containment_closed_rectangle_witness :
    is_point_inside_zone 0 5 (0, 0, 10, 10) = true ∧
    is_point_inside_zone 10 5 (0, 0, 10, 10) = true ∧
    is_point_inside_zone (-1) 5 (0, 0, 10, 10) = false ∧
    is_point_inside_zone 11 5 (0, 0, 10, 10) = false :=
  claim_containment_closed_rectangle.2.1 0 0 10 10 5
    (by decide) (by decide) (by decide)

/-- C3 counterexample: the source filters contours with
`if contour_area > 500`, so a region whose area is exactly 500 is
discarded, contrary to the claim that every region whose area is not
below 500 survives.  The contour `⟨500, 0, 400, 100, 100⟩` has area 500
and centre `(50, 450)`, which lies inside the Kick zone, yet it sets no
hit state and plays no sound. -/
theorem claim_noise_threshold_counterexample :
    is_point_inside_zone (centerX ⟨500, 0, 400, 100, 100⟩)
        (centerY ⟨500, 0, 400, 100, 100⟩) (drum_zones DrumName.Kick).box = true ∧
    (processFrame [⟨500, 0, 400, 100, 100⟩] initial_sound_is_locked).hit
        DrumName.Kick = false ∧
    (processFrame [⟨500, 0, 400, 100, 100⟩] initial_sound_is_locked).triggers
      = [] := by
  refine ⟨by decide, by decide, ?_⟩
  show (processFrame [⟨500, 0, 400, 100, 100⟩] initial_sound_is_locked).triggers = []
  unfold processFrame
  rw [foldReset_triggers]
  simp only [List.foldl_cons, List.foldl_nil]
  rw [processContour, if_neg (by decide)]

/-- C3 amended: a detected region is discarded as noise exactly when its
pixel area is **not strictly above** 500: a region with area 499 — and also
one with area exactly 500 — produces no hit and no playback, while every
region with area above 500 survives, and its hit on a zone is decided by
containment of its bounding-rectangle centre. -/
theorem claim_noise_threshold_amended :
    (∀ (c : Contour) (lock0 : DrumName → Bool) (d : DrumName),
        c.area ≤ 500 →
          (processFrame [c] lock0).hit d = false ∧
          (processFrame [c] lock0).triggers = []) ∧
    (∀ (c : Contour) (lock0 : DrumName → Bool) (d : DrumName),
        500 < c.area →
          (processFrame [c] lock0).hit d
            = is_point_inside_zone (centerX c) (centerY c) (drum_zones d).box) := by
  constructor
  · intro c lock0 d h
    have hc : ∀ e, contourHits c e = false := by
      intro e
      unfold contourHits
      rw [decide_eq_false (by omega)]
      rfl
    constructor
    · rw [processFrame_hit]
      simp [frameHit, hc]
    · unfold processFrame
      rw [foldReset_triggers]
      simp only [List.foldl_cons, List.foldl_nil]
      rw [processContour, if_neg (by omega)]
  · intro c lock0 d h
    rw [processFrame_hit]
    simp [frameHit, contourHits, h]

theorem claim_noise_threshold_amended_witness :
    ((processFrame [⟨499, 0, 400, 100, 100⟩] initial_sound_is_locked).hit
        DrumName.Kick = false ∧
     (processFrame [⟨499, 0, 400, 100, 100⟩] initial_sound_is_locked).triggers
       = []) ∧
    (processFrame [⟨501, 0, 400, 100, 100⟩] initial_sound_is_locked).hit
        DrumName.Kick
      = is_point_inside_zone (centerX ⟨501, 0, 400, 100, 100⟩)
          (centerY ⟨501, 0, 400, 100, 100⟩) (drum_zones DrumName.Kick).box :=
  ⟨claim_noise_threshold_amended.1 ⟨499, 0, 400, 100, 100⟩
      initial_sound_is_locked DrumName.Kick (by decide),
   claim_noise_threshold_amended.2 ⟨501, 0, 400, 100, 100⟩
      initial_sound_is_locked DrumName.Kick (by decide)⟩

/-- C4: for every frame, the Hit Resolver sets `HitState[zone]` to true iff
at least one detected object's centroid lies within that zone's closed
rectangle (first conjunct), and zones are evaluated independently: when two
distinct zones are both hit in the same frame and neither lock is held,
each zone's sound plays exactly once (second conjunct). -/
theorem claim_hit_resolver_independence :
    (∀ (cs : List Contour) (lock0 : DrumName → Bool) (d : DrumName),
        (processFrame cs lock0).hit d = true ↔
          ∃ c ∈ cs, 500 < c.area ∧
            is_point_inside_zone (centerX c) (centerY c) (drum_zones d).box
              = true) ∧
    (∀ (cs : List Contour) (lock0 : DrumName → Bool) (d1 d2 : DrumName),
        d1 ≠ d2 →
        (processFrame cs lock0).hit d1 = true →
        (processFrame cs lock0).hit d2 = true →
        lock0 d1 = false → lock0 d2 = false →
        (processFrame cs lock0).triggers.count d1 = 1 ∧
        (processFrame cs lock0).triggers.count d2 = 1) := by
  constructor
  · intro cs lock0 d
    rw [processFrame_hit]
    simp [frameHit, contourHits]
  · intro cs lock0 d1 d2 hne h1 h2 hl1 hl2
    rw [processFrame_hit] at h1 h2
    rw [processFrame_count, processFrame_count, h1, h2, hl1, hl2]
    simp

theorem claim_hit_resolver_independence_witness :
    (processFrame [⟨600, 0, 400, 100, 100⟩, ⟨600, 130, 400, 100, 100⟩]
        initial_sound_is_locked).triggers.count DrumName.Kick = 1 ∧
    (processFrame [⟨600, 0, 400, 100, 100⟩, ⟨600, 130, 400, 100, 100⟩]
        initial_sound_is_locked).triggers.count DrumName.Snare = 1 :=
  claim_hit_resolver_independence.2
    [⟨600, 0, 400, 100, 100⟩, ⟨600, 130, 400, 100, 100⟩]
    initial_sound_is_locked DrumName.Kick DrumName.Snare
    (by decide) (by decide) (by decide) rfl rfl

/-- C5: the trigger lock of a zone is reset in any frame whose HitState for
that zone is false (first conjunct), so a nonempty hit run, followed by at
least one frame without a hit, followed by another nonempty hit run, plays
the zone's sound exactly twice in total (second conjunct). -/
theorem claim_lock_reset_and_rearm :
    (∀ (cs : List Contour) (lock0 : DrumName → Bool) (d : DrumName),
        frameHit cs d = false → (processFrame cs lock0).lock d = false) ∧
    (∀ (run1 gap run2 : List (List Contour)) (d : DrumName),
        run1 ≠ [] → gap ≠ [] → run2 ≠ [] →
        (∀ f ∈ run1, frameHit f d = true) →
        (∀ f ∈ gap, frameHit f d = false) →
        (∀ f ∈ run2, frameHit f d = true) →
        (runFrames (run1 ++ gap ++ run2) initial_sound_is_locked).2 d = 2) := by
  constructor
  · intro cs lock0 d h
    rw [processFrame_lock]
    exact h
  · intro run1 gap run2 d h1 h2 h3 hall1 hall2 hall3
    have A := runFrames_append run1 (gap ++ run2) initial_sound_is_locked
    have B := runFrames_append gap run2 (runFrames run1 initial_sound_is_locked).1
    have hc1 : (runFrames run1 initial_sound_is_locked).2 d = 1 :=
      runFrames_one_per_run run1 _ d rfl h1 hall1
    have hcg : (runFrames gap (runFrames run1 initial_sound_is_locked).1).2 d = 0 :=
      runFrames_not_hit gap _ d hall2
    have hL2 : (runFrames run2
        (runFrames gap (runFrames run1 initial_sound_is_locked).1).1).2 d = 1 := by
      refine runFrames_one_per_run run2 _ d ?_ h3 hall3
      rw [runFrames_fst_getLast gap _ d (gap.getLast h2)
            (List.getLast?_eq_getLast_of_ne_nil h2)]
      exact hall2 _ (List.getLast_mem h2)
    rw [List.append_assoc, A.2 d, B.2 d, hc1, hcg, hL2]

theorem claim_lock_reset_and_rearm_witness :
    (runFrames ([[⟨600, 0, 400, 100, 100⟩]] ++ [[]] ++ [[⟨600, 0, 400, 100, 100⟩]])
        initial_sound_is_locked).2 DrumName.Kick = 2 :=
  claim_lock_reset_and_rearm.2
    [[⟨600, 0, 400, 100, 100⟩]] [[]] [[⟨600, 0, 400, 100, 100⟩]] DrumName.Kick
    (by simp) (by simp) (by simp) (by decide) (by decide) (by decide)

/-- C6: in the Menu state, any key other than `p`, `c`, `b`, `q` leaves the
whole application state (including `showing_credits`) unchanged; in the
Play state, any key other than `b`, `q` leaves it unchanged; and `b` in the
Play state switches to the Menu state and resets `showing_credits` to
false, touching nothing else. -/
theorem claim_key_transition_closure :
    (∀ (key : Nat) (s : GlobalState),
        key ≠ ord_p → key ≠ ord_c → key ≠ ord_b → key ≠ ord_q →
          handleMenuKey key s = s) ∧
    (∀ (key : Nat) (s : GlobalState),
        key ≠ ord_b → key ≠ ord_q → handlePlayKey key s = s) ∧
    (∀ s : GlobalState,
        (handlePlayKey ord_b s).app = AppState.Menu ∧
        (handlePlayKey ord_b s).showing_credits = false ∧
        (handlePlayKey ord_b s).running = s.running ∧
        (handlePlayKey ord_b s).sound_is_locked = s.sound_is_locked) := by
  refine ⟨?_, ?_, ?_⟩
  · intro key s h1 h2 h3 h4
    simp [handleMenuKey, h1, h2, h3, h4]
  · intro key s h1 h2
    simp [handlePlayKey, h1, h2]
  · intro s
    simp [handlePlayKey]

theorem claim_key_transition_closure_witness :
    handleMenuKey 120 ⟨AppState.Menu, false, initial_sound_is_locked, true⟩
      = ⟨AppState.Menu, false, initial_sound_is_locked, true⟩ ∧
    handlePlayKey 120 ⟨AppState.Play, false, initial_sound_is_locked, true⟩
      = ⟨AppState.Play, false, initial_sound_is_locked, true⟩ ∧
    (handlePlayKey ord_b ⟨AppState.Play, true, initial_sound_is_locked, true⟩).app
      = AppState.Menu ∧
    (handlePlayKey ord_b
        ⟨AppState.Play, true, initial_sound_is_locked, true⟩).showing_credits
      = false :=
  ⟨claim_key_transition_closure.1 120 _
      (by decide) (by decide) (by decide) (by decide),
   claim_key_transition_closure.2.1 120 _ (by decide) (by decide),
   (claim_key_transition_closure.2.2
      ⟨AppState.Play, true, initial_sound_is_locked, true⟩).1,
   (claim_key_transition_closure.2.2
      ⟨AppState.Play, true, initial_sound_is_locked, true⟩).2.1⟩

/-- C7: for every outcome of the underlying image read (including `None`
for an unreadable or corrupt file, and a shape for which the source's
`shape[2]` access raises, caught by the `except` clause) and every
requested target size, `load_drum_image` returns an image — never a failure
— whose dimensions are exactly the requested ones and which has 3 colour
channels. -/
theorem claim_loader_always_target_shape :
    ∀ (res : ImreadResult) (target_width target_height : Nat),
      (load_drum_image res target_width target_height).height = target_height ∧
      (load_drum_image res target_width target_height).width = target_width ∧
      (load_drum_image res target_width target_height).channels = 3 := by
  intro res tw th
  cases res with
  | failure => exact ⟨rfl, rfl, rfl⟩
  | gray h w => exact ⟨rfl, rfl, rfl⟩
  | color h w ch =>
    unfold load_drum_image
    by_cases h4 : ch = 4
    · simp [h4, placeholderImage]
    · by_cases h3 : ch = 3
      · simp [h4, h3]
      · simp [h4, h3, placeholderImage]

/-- C8: one iteration of the main loop ends the loop (clears `running`) iff
the webcam read failed or the pressed key is `q` — in either the Menu or
the Play state; no other condition terminates the loop. -/
theorem claim_loop_exit_conditions :
    ∀ (inp : LoopInput) (s : GlobalState), s.running = true →
      ((loopStep inp s).running = false ↔
        (inp.frame_captured = false ∨ inp.key = ord_q)) := by
  intro inp s hrun
  unfold loopStep
  by_cases hcap : inp.frame_captured = false
  · simp [hcap]
  · rw [if_neg hcap]
    cases s.app with
    | Menu =>
      unfold handleMenuKey
      split_ifs <;> simp_all [ord_p, ord_c, ord_b, ord_q]
    | Play =>
      unfold handlePlayKey
      split_ifs <;> simp_all [ord_b, ord_q]

theorem claim_loop_exit_conditions_witness :
    ((loopStep ⟨true, [], 113⟩
        ⟨AppState.Menu, false, initial_sound_is_locked, true⟩).running = false ↔
      ((true : Bool) = false ∨ (113 : Nat) = ord_q)) ∧
    ((loopStep ⟨false, [], 0⟩
        ⟨AppState.Play, false, initial_sound_is_locked, true⟩).running = false ↔
      ((false : Bool) = false ∨ (0 : Nat) = ord_q)) :=
  ⟨claim_loop_exit_conditions ⟨true, [], 113⟩
      ⟨AppState.Menu, false, initial_sound_is_locked, true⟩ rfl,
   claim_loop_exit_conditions ⟨false, [], 0⟩
      ⟨AppState.Play, false, initial_sound_is_locked, true⟩ rfl⟩

/-- C9: adjacent bottom-row pads share their boundary column.  For each of
the four interior boundaries `x = (i+1) * zone_width` (with
`zone_width = 640 // 5 = 128`) and any `y` in the bottom row, the boundary
point is inside both adjacent zones — which are distinct — and a single
detected object centred there (with area above the noise threshold),
processed from the unlocked startup state, plays both drums' sounds in the
same frame. -/
theorem claim_shared_boundary_double_trigger :
    ∀ (i : Fin 4) (y : Int) (c : Contour),
      380 ≤ y → y ≤ 480 →
      centerX c = ((i.val : Int) + 1) * zone_width →
      centerY c = y →
      500 < c.area →
      bottomDrum i.castSucc ≠ bottomDrum i.succ ∧
      is_point_inside_zone (((i.val : Int) + 1) * zone_width) y
          (drum_zones (bottomDrum i.castSucc)).box = true ∧
      is_point_inside_zone (((i.val : Int) + 1) * zone_width) y
          (drum_zones (bottomDrum i.succ)).box = true ∧
      (processFrame [c] initial_sound_is_locked).triggers.count
          (bottomDrum i.castSucc) = 1 ∧
      (processFrame [c] initial_sound_is_locked).triggers.count
          (bottomDrum i.succ) = 1 := by
  intro i y c hy1 hy2 hcx hcy harea
  have hzw : zone_width = 128 := by decide
  have hv1 : (i.castSucc).val = i.val := rfl
  have hv2 : (i.succ).val = i.val + 1 := rfl
  have hin1 : is_point_inside_zone (((i.val : Int) + 1) * zone_width) y
      (drum_zones (bottomDrum i.castSucc)).box = true := by
    rw [drum_zones_box_bottom, hv1, hzw]
    simp only [is_point_inside_zone, decide_eq_true_eq]
    omega
  have hin2 : is_point_inside_zone (((i.val : Int) + 1) * zone_width) y
      (drum_zones (bottomDrum i.succ)).box = true := by
    rw [drum_zones_box_bottom, hv2, hzw]
    simp only [is_point_inside_zone, decide_eq_true_eq]
    push_cast
    omega
  have hfh : ∀ e : DrumName,
      is_point_inside_zone (((i.val : Int) + 1) * zone_width) y
          (drum_zones e).box = true →
      frameHit [c] e = true := by
    intro e he
    rw [frameHit_cons, frameHit_nil, Bool.or_false]
    unfold contourHits
    rw [hcx, hcy, he, decide_eq_true harea]
    rfl
  refine ⟨bottomDrum_adjacent_ne i, hin1, hin2, ?_, ?_⟩
  · rw [processFrame_count, hfh _ hin1]
    rfl
  · rw [processFrame_count, hfh _ hin2]
    rfl

theorem claim_shared_boundary_double_trigger_witness :
    (processFrame [⟨600, 118, 440, 20, 20⟩]
        initial_sound_is_locked).triggers.count DrumName.Kick = 1 ∧
    (processFrame [⟨600, 118, 440, 20, 20⟩]
        initial_sound_is_locked).triggers.count DrumName.Snare = 1 :=
  ⟨(claim_shared_boundary_double_trigger 0 450 ⟨600, 118, 440, 20, 20⟩
      (by decide) (by decide) (by decide) (by decide) (by decide)).2.2.2.1,
   (claim_shared_boundary_double_trigger 0 450 ⟨600, 118, 440, 20, 20⟩
      (by decide) (by decide) (by decide) (by decide) (by decide)).2.2.2.2⟩

/-- C10: the source's interleaved triggering (playing a sound inside the
contour loop as soon as the first in-zone unlocked object is found) is
observably equivalent to the spec's two-phase model (first compute the full
HitState over all detected objects, then run the per-zone debouncer): for
every frame and every prior lock table they agree on the HitState, on the
final lock table, and on the emitted triggers (per-zone playback counts). -/
theorem claim_interleaved_equals_two_phase :
    ∀ (contours : List Contour) (lock0 : DrumName → Bool) (d : DrumName),
      (processFrame contours lock0).hit d = specHitState contours d ∧
      (processFrame contours lock0).lock d
        = specLockAfter (specHitState contours) d ∧
      (processFrame contours lock0).triggers.count d
        = (if specTrigger (specHitState contours) lock0 d = true
           then 1 else 0) := by
  intro cs lock0 d
  refine ⟨?_, ?_, ?_⟩
  · rw [processFrame_hit, specHitState_eq_frameHit]
  · rw [processFrame_lock]
    unfold specLockAfter
    rw [specHitState_eq_frameHit]
  · rw [processFrame_count]
    unfold specTrigger
    rw [specHitState_eq_frameHit]

end AirDrums
